import Mathlib

/-!
Shallow embedding of the member-state reconciliation engine of
discord-rolepersist (src/main.rs).

The durable store (SQLite, two tables) is modelled as lists of rows; the
wall clock is an explicit parameter `now` (seconds since the epoch, a `Nat`
because the code stores `Duration::as_secs()`, a u64); the external
role-grant API is modelled as a boolean oracle `grantOk server user role`
telling whether the HTTP grant call succeeds; the list of grant requests an
operation issues is returned alongside the new store state.
-/

/-- Mirror of `struct SimpleMember` (main.rs lines 21-26): join time in
epoch seconds (i64), user and server ids (u64), role ids (Vec of u64). -/
structure SimpleMember where
  joined_at : Int
  user_id : Nat
  server_id : Nat
  roles : List Nat
deriving DecidableEq, Repr

/-- One row of the `roles` table (no primary key, duplicates possible). -/
structure RoleRow where
  user_id : Nat
  server_id : Nat
  role_id : Nat
deriving DecidableEq, Repr

/-- One row of the `last_seen` table (primary key (user_id, server_id),
so REPLACE keeps at most one row per key). -/
structure LastSeenRow where
  user_id : Nat
  server_id : Nat
  time : Int
deriving DecidableEq, Repr

/-- The durable store: the two tables created in `Handler::new`. -/
structure Db where
  roles : List RoleRow
  last_seen : List LastSeenRow
deriving DecidableEq, Repr

/-- The roles query of `restore_member` (main.rs lines 131-141):
SELECT role_id FROM roles WHERE user_id=?1 AND server_id=?2. -/
def rolesFor (db : Db) (user_id server_id : Nat) : List Nat :=
  (db.roles.filter
    (fun r => r.user_id == user_id && r.server_id == server_id)).map
    (fun r => r.role_id)

/-- Mirror of `Handler::last_seen` (main.rs lines 167-181): SELECT time
FROM last_seen for the member's key; the code asserts at most one row
(guaranteed by the primary key) and returns the first, if any. -/
def last_seen (db : Db) (m : SimpleMember) : Option Int :=
  ((db.last_seen.filter
    (fun r => r.user_id == m.user_id && r.server_id == m.server_id)).map
    (fun r => r.time)).head?

/-- Mirror of `Handler::save_member` (main.rs lines 98-123), one
transaction: REPLACE the last_seen row for the key with the current
wall-clock seconds `now` (not `joined_at`), DELETE all roles rows for the
key, then INSERT one roles row per member role. -/
def save_member (db : Db) (m : SimpleMember) (now : Nat) : Db :=
  { last_seen :=
      { user_id := m.user_id, server_id := m.server_id, time := (now : Int) } ::
        db.last_seen.filter
          (fun r => !(r.user_id == m.user_id && r.server_id == m.server_id)),
    roles :=
      db.roles.filter
        (fun r => !(r.user_id == m.user_id && r.server_id == m.server_id))
        ++ m.roles.map
          (fun rid =>
            { user_id := m.user_id, server_id := m.server_id, role_id := rid }) }

/-- One iteration of the role loop of `Handler::restore_member`
(main.rs lines 143-164): skip a persisted role the member already has;
otherwise issue a grant request; on success push the role onto the
member's roles, on failure only log and continue. The accumulator carries
the (mutated) member and the grant requests issued so far. -/
def restoreStep (grantOk : Nat → Nat → Nat → Bool)
    (acc : SimpleMember × List Nat) (role : Nat) : SimpleMember × List Nat :=
  if acc.1.roles.contains role then acc
  else if grantOk acc.1.server_id acc.1.user_id role then
    ({ acc.1 with roles := acc.1.roles ++ [role] }, acc.2 ++ [role])
  else (acc.1, acc.2 ++ [role])

/-- Mirror of `Handler::restore_member` (main.rs lines 125-165): read the
persisted roles for the key and run the grant loop over them in row
order. Returns the updated member and the grant requests issued. -/
def restore_member (db : Db) (grantOk : Nat → Nat → Nat → Bool)
    (m : SimpleMember) : SimpleMember × List Nat :=
  (rolesFor db m.user_id m.server_id).foldl (restoreStep grantOk) (m, [])

/-- Mirror of `Handler::observe_member` (main.rs lines 183-195), the body
of the per-key critical section: if a prior last_seen exists and is
strictly smaller than the snapshot's joined_at, restore; then always
save. Returns the new store and the grant requests issued. -/
def observe_member (db : Db) (grantOk : Nat → Nat → Nat → Bool)
    (m : SimpleMember) (now : Nat) : Db × List Nat :=
  match last_seen db m with
  | some t =>
      if t < m.joined_at then
        let r := restore_member db grantOk m
        (save_member db r.1 now, r.2)
      else (save_member db m now, [])
  | none => (save_member db m now, [])

/-- Mirror of `Handler::forget_guild` (main.rs lines 211-226), one
transaction: DELETE all roles rows and all last_seen rows whose
server_id matches. -/
def forget_guild (db : Db) (server_id : Nat) : Db :=
  { roles := db.roles.filter (fun r => !(r.server_id == server_id)),
    last_seen := db.last_seen.filter (fun r => !(r.server_id == server_id)) }

/-- Mirror of `enum RestrictionMode` (main.rs lines 307-310). -/
inductive RestrictionMode where
  | Allow
  | Deny
deriving DecidableEq, Repr

/-- Mirror of `struct Restriction` (main.rs lines 339-343). -/
structure Restriction where
  mode : RestrictionMode
  servers : List Nat
deriving DecidableEq, Repr

/-- Mirror of `Restriction::is_restricted` (main.rs lines 345-355):
Allow mode accepts listed servers, Deny mode accepts unlisted ones. -/
def Restriction.is_restricted (self : Restriction) (server_id : Nat) : Bool :=
  let is_listed := self.servers.find? (fun id => id == server_id)
  match self.mode with
  | RestrictionMode.Allow => is_listed.isSome
  | RestrictionMode.Deny => is_listed.isNone

/-- Mirror of `Handler::filter_allow_server` (main.rs lines 228-234):
with no restriction configured every server passes. -/
def filter_allow_server (restrict : Option Restriction) (id : Nat) : Bool :=
  match restrict with
  | some r => r.is_restricted id
  | none => true

/-- An engine operation as invoked by the gateway event handlers:
`observe` and `saveGuild` reach `observe_member`; `forget` reaches
`forget_guild` (store deletes). -/
inductive EngineOp where
  | observe (m : SimpleMember)
  | saveGuild (server_id : Nat)
  | forget (server_id : Nat)
deriving DecidableEq, Repr

/-- Mirror of `EventHandler::ready` (main.rs lines 262-272): filter the
session's guilds through `filter_allow_server`, then save each survivor. -/
def ready (restrict : Option Restriction) (guild_ids : List Nat) :
    List EngineOp :=
  (guild_ids.filter (fun id => filter_allow_server restrict id)).map
    EngineOp.saveGuild

/-- Mirror of `EventHandler::guild_create` (main.rs lines 274-280). -/
def guild_create (restrict : Option Restriction) (guild_id : Nat) :
    List EngineOp :=
  if filter_allow_server restrict guild_id then [EngineOp.saveGuild guild_id]
  else []

/-- Mirror of `EventHandler::guild_delete` (main.rs lines 282-286): when
the guild is not merely unavailable, forget it. Note: this handler does
NOT consult `filter_allow_server`; the restriction argument (part of the
handler's state) is ignored, exactly as in the source. -/
def guild_delete (restrict : Option Restriction) (guild_id : Nat)
    (unavailable : Bool) : List EngineOp :=
  if !unavailable then [EngineOp.forget guild_id] else []

/-- Mirror of `EventHandler::guild_member_addition` (main.rs 288-292). -/
def guild_member_addition (restrict : Option Restriction)
    (m : SimpleMember) : List EngineOp :=
  if filter_allow_server restrict m.server_id then [EngineOp.observe m]
  else []

/-- Mirror of `EventHandler::guild_member_update` (main.rs 294-304). -/
def guild_member_update (restrict : Option Restriction)
    (m : SimpleMember) : List EngineOp :=
  if filter_allow_server restrict m.server_id then [EngineOp.observe m]
  else []

/-- Mirror of `impl From<&Member> for SimpleMember` (main.rs lines 28-37):
`member.joined_at.unwrap_or_default().unix_timestamp()` — the serenity
library's default Timestamp is the Unix epoch, so an absent join time
becomes 0. -/
def simpleMemberOfMember (joined_at : Option Int) (user_id server_id : Nat)
    (roles : List Nat) : SimpleMember :=
  { joined_at := joined_at.getD 0,
    user_id := user_id,
    server_id := server_id,
    roles := roles }

/-! Helper lemmas about the store operations. -/

theorem filter_after_filter_not {α : Type} (p q : α → Bool) (l : List α)
    (h : ∀ a, q a = true → p a = true) :
    (l.filter (fun a => !(p a))).filter q = [] := by
  induction l with
  | nil => rfl
  | cons a t ih =>
    cases hp : p a with
    | true => simpa [List.filter_cons, hp] using ih
    | false =>
      have hq : q a = false := by
        cases hqa : q a with
        | false => rfl
        | true => exact absurd (h a hqa) (by simp [hp])
      simp [List.filter_cons, hp, hq, ih]

theorem filter_after_filter_not_preserved {α : Type} (p q : α → Bool)
    (l : List α) (h : ∀ a, q a = true → p a = false) :
    (l.filter (fun a => !(p a))).filter q = l.filter q := by
  induction l with
  | nil => rfl
  | cons a t ih =>
    cases hq : q a with
    | true =>
      have hp : p a = false := h a hq
      simp [List.filter_cons, hp, hq, ih]
    | false =>
      cases hp : p a with
      | true => simp [List.filter_cons, hp, hq, ih]
      | false => simp [List.filter_cons, hp, hq, ih]

theorem rolesFor_save (db : Db) (m : SimpleMember) (now : Nat) :
    rolesFor (save_member db m now) m.user_id m.server_id = m.roles := by
  unfold rolesFor save_member
  rw [List.filter_append,
    filter_after_filter_not _ _ _ (fun a ha => ha)]
  have hkeep :
      (m.roles.map (fun rid =>
        ({ user_id := m.user_id, server_id := m.server_id,
           role_id := rid } : RoleRow))).filter
        (fun r => r.user_id == m.user_id && r.server_id == m.server_id)
      = m.roles.map (fun rid =>
        ({ user_id := m.user_id, server_id := m.server_id,
           role_id := rid } : RoleRow)) := by
    induction m.roles with
    | nil => rfl
    | cons a t ih => simp [List.filter_cons, ih]
  rw [hkeep]
  simp [List.map_map, Function.comp_def]

theorem last_seen_save (db : Db) (m msel : SimpleMember) (now : Nat)
    (hu : msel.user_id = m.user_id) (hs : msel.server_id = m.server_id) :
    last_seen (save_member db m now) msel = some (now : Int) := by
  unfold last_seen save_member
  simp [List.filter_cons, hu, hs]

theorem restoreStep_ids (g : Nat → Nat → Nat → Bool)
    (acc : SimpleMember × List Nat) (role : Nat) :
    (restoreStep g acc role).1.user_id = acc.1.user_id ∧
    (restoreStep g acc role).1.server_id = acc.1.server_id := by
  unfold restoreStep
  split
  · exact ⟨rfl, rfl⟩
  · split
    · exact ⟨rfl, rfl⟩
    · exact ⟨rfl, rfl⟩

theorem restore_foldl_ids (g : Nat → Nat → Nat → Bool) (l : List Nat) :
    ∀ acc : SimpleMember × List Nat,
    (l.foldl (restoreStep g) acc).1.user_id = acc.1.user_id ∧
    (l.foldl (restoreStep g) acc).1.server_id = acc.1.server_id := by
  induction l with
  | nil => intro acc; exact ⟨rfl, rfl⟩
  | cons a t ih =>
    intro acc
    have h := restoreStep_ids g acc a
    have h2 := ih (restoreStep g acc a)
    simp only [List.foldl_cons]
    exact ⟨h2.1.trans h.1, h2.2.trans h.2⟩

theorem restoreStep_reqs_mono (g : Nat → Nat → Nat → Bool)
    (acc : SimpleMember × List Nat) (role x : Nat) (hx : x ∈ acc.2) :
    x ∈ (restoreStep g acc role).2 := by
  unfold restoreStep
  split
  · exact hx
  · split
    · exact List.mem_append_left _ hx
    · exact List.mem_append_left _ hx

theorem restore_foldl_reqs_mono (g : Nat → Nat → Nat → Bool) (l : List Nat) :
    ∀ (acc : SimpleMember × List Nat) (x : Nat), x ∈ acc.2 →
    x ∈ (l.foldl (restoreStep g) acc).2 := by
  induction l with
  | nil => intro acc x hx; exact hx
  | cons a t ih =>
    intro acc x hx
    simp only [List.foldl_cons]
    exact ih _ x (restoreStep_reqs_mono g acc a x hx)

theorem restoreStep_roles_mono (g : Nat → Nat → Nat → Bool)
    (acc : SimpleMember × List Nat) (role x : Nat) (hx : x ∈ acc.1.roles) :
    x ∈ (restoreStep g acc role).1.roles := by
  unfold restoreStep
  split
  · exact hx
  · split
    · exact List.mem_append_left _ hx
    · exact hx

theorem restore_foldl_roles_mono (g : Nat → Nat → Nat → Bool) (l : List Nat) :
    ∀ (acc : SimpleMember × List Nat) (x : Nat), x ∈ acc.1.roles →
    x ∈ (l.foldl (restoreStep g) acc).1.roles := by
  induction l with
  | nil => intro acc x hx; exact hx
  | cons a t ih =>
    intro acc x hx
    simp only [List.foldl_cons]
    exact ih _ x (restoreStep_roles_mono g acc a x hx)

theorem restoreStep_roles_sub (g : Nat → Nat → Nat → Bool) (P : Nat → Prop)
    (acc : SimpleMember × List Nat) (a : Nat)
    (h : ∀ x, x ∈ acc.1.roles → P x ∨ x ∈ acc.2) :
    ∀ x, x ∈ (restoreStep g acc a).1.roles → P x ∨ x ∈ (restoreStep g acc a).2 := by
  intro x hx
  unfold restoreStep at hx ⊢
  by_cases hc : acc.1.roles.contains a = true
  · rw [if_pos hc] at hx ⊢
    exact h x hx
  · rw [if_neg hc] at hx ⊢
    by_cases hg : g acc.1.server_id acc.1.user_id a = true
    · rw [if_pos hg] at hx ⊢
      rcases List.mem_append.mp hx with h1 | h2
      · rcases h x h1 with hp | hq
        · exact Or.inl hp
        · exact Or.inr (List.mem_append_left _ hq)
      · exact Or.inr (List.mem_append_right _ h2)
    · rw [if_neg hg] at hx ⊢
      rcases h x hx with hp | hq
      · exact Or.inl hp
      · exact Or.inr (List.mem_append_left _ hq)

theorem restore_foldl_roles_sub (g : Nat → Nat → Nat → Bool) (P : Nat → Prop)
    (l : List Nat) :
    ∀ acc : SimpleMember × List Nat, (∀ x, x ∈ acc.1.roles → P x ∨ x ∈ acc.2) →
    ∀ x, x ∈ (l.foldl (restoreStep g) acc).1.roles →
    P x ∨ x ∈ (l.foldl (restoreStep g) acc).2 := by
  induction l with
  | nil => intro acc h; exact h
  | cons a t ih =>
    intro acc h
    simp only [List.foldl_cons]
    exact ih _ (restoreStep_roles_sub g P acc a h)

theorem restore_foldl_cover (g : Nat → Nat → Nat → Bool) (l : List Nat) :
    ∀ (acc : SimpleMember × List Nat) (x : Nat), x ∈ l →
    x ∈ (l.foldl (restoreStep g) acc).1.roles ∨
    x ∈ (l.foldl (restoreStep g) acc).2 := by
  induction l with
  | nil => intro acc x hx; exact absurd hx (List.not_mem_nil x)
  | cons a t ih =>
    intro acc x hx
    simp only [List.foldl_cons]
    rcases List.mem_cons.mp hx with heq | ht
    · subst heq
      have hstep : x ∈ (restoreStep g acc x).1.roles ∨ x ∈ (restoreStep g acc x).2 := by
        unfold restoreStep
        by_cases hc : acc.1.roles.contains x = true
        · rw [if_pos hc]
          exact Or.inl (List.mem_of_elem_eq_true hc)
        · rw [if_neg hc]
          by_cases hg : g acc.1.server_id acc.1.user_id x = true
          · rw [if_pos hg]
            exact Or.inl (List.mem_append_right _ (List.mem_singleton.mpr rfl))
          · rw [if_neg hg]
            exact Or.inr (List.mem_append_right _ (List.mem_singleton.mpr rfl))
      rcases hstep with h1 | h2
      · exact Or.inl (restore_foldl_roles_mono g t _ x h1)
      · exact Or.inr (restore_foldl_reqs_mono g t _ x h2)
    · exact ih _ x ht

theorem restoreStep_fail_not_added (g : Nat → Nat → Nat → Bool)
    (acc : SimpleMember × List Nat) (a r : Nat)
    (hg : g acc.1.server_id acc.1.user_id r = false) (hr : r ∉ acc.1.roles) :
    r ∉ (restoreStep g acc a).1.roles := by
  unfold restoreStep
  by_cases hc : acc.1.roles.contains a = true
  · rw [if_pos hc]
    exact hr
  · rw [if_neg hc]
    by_cases hga : g acc.1.server_id acc.1.user_id a = true
    · rw [if_pos hga]
      intro hmem
      rcases List.mem_append.mp hmem with h1 | h2
      · exact hr h1
      · have : r = a := List.mem_singleton.mp h2
        subst this
        rw [hg] at hga
        exact Bool.false_ne_true hga
    · rw [if_neg hga]
      exact hr

theorem restore_foldl_fail_not_added (g : Nat → Nat → Nat → Bool)
    (r : Nat) (l : List Nat) :
    ∀ acc : SimpleMember × List Nat,
    g acc.1.server_id acc.1.user_id r = false → r ∉ acc.1.roles →
    r ∉ (l.foldl (restoreStep g) acc).1.roles := by
  induction l with
  | nil => intro acc _ hr; exact hr
  | cons a t ih =>
    intro acc hg hr
    simp only [List.foldl_cons]
    have hids := restoreStep_ids g acc a
    refine ih _ ?_ (restoreStep_fail_not_added g acc a r hg hr)
    rw [hids.1, hids.2]
    exact hg

theorem observe_member_eq_of_none (db : Db) (g : Nat → Nat → Nat → Bool)
    (m : SimpleMember) (now : Nat) (hl : last_seen db m = none) :
    observe_member db g m now = (save_member db m now, []) := by
  unfold observe_member
  rw [hl]

theorem observe_member_eq_of_ge (db : Db) (g : Nat → Nat → Nat → Bool)
    (m : SimpleMember) (now : Nat) (t : Int) (hl : last_seen db m = some t)
    (hge : m.joined_at ≤ t) :
    observe_member db g m now = (save_member db m now, []) := by
  unfold observe_member
  rw [hl]
  exact if_neg (not_lt.mpr hge)

theorem observe_member_eq_of_lt (db : Db) (g : Nat → Nat → Nat → Bool)
    (m : SimpleMember) (now : Nat) (t : Int) (hl : last_seen db m = some t)
    (hlt : t < m.joined_at) :
    observe_member db g m now
      = (save_member db (restore_member db g m).1 now, (restore_member db g m).2) := by
  unfold observe_member
  rw [hl]
  exact if_pos hlt

theorem restore_member_ids (db : Db) (g : Nat → Nat → Nat → Bool)
    (m : SimpleMember) :
    (restore_member db g m).1.user_id = m.user_id ∧
    (restore_member db g m).1.server_id = m.server_id :=
  restore_foldl_ids g (rolesFor db m.user_id m.server_id) (m, [])

theorem last_seen_observe (db : Db) (g : Nat → Nat → Nat → Bool)
    (m : SimpleMember) (now : Nat) :
    last_seen (observe_member db g m now).1 m = some (now : Int) := by
  cases hl : last_seen db m with
  | none =>
    rw [observe_member_eq_of_none db g m now hl]
    exact last_seen_save db m m now rfl rfl
  | some t =>
    by_cases hlt : t < m.joined_at
    · rw [observe_member_eq_of_lt db g m now t hl hlt]
      have hids := restore_member_ids db g m
      exact last_seen_save db _ m now hids.1.symm hids.2.symm
    · rw [observe_member_eq_of_ge db g m now t hl (not_lt.mp hlt)]
      exact last_seen_save db m m now rfl rfl

/-! The claims. -/

/-- C1: observe issues restoration's grant requests if and only if a prior
last-seen record exists for the key and is strictly smaller than the
snapshot's joined_at; with no prior record, or a prior record at or after
the join time, zero grant requests are issued. -/
theorem observe_restoration_decision (db : Db) (g : Nat → Nat → Nat → Bool)
    (m : SimpleMember) (now : Nat) :
    (last_seen db m = none → (observe_member db g m now).2 = []) ∧
    (∀ t : Int, last_seen db m = some t → m.joined_at ≤ t →
      (observe_member db g m now).2 = []) ∧
    (∀ t : Int, last_seen db m = some t → t < m.joined_at →
      (observe_member db g m now).2 = (restore_member db g m).2) := by
  refine ⟨?_, ?_, ?_⟩
  · intro hl
    rw [observe_member_eq_of_none db g m now hl]
  · intro t hl hge
    rw [observe_member_eq_of_ge db g m now t hl hge]
  · intro t hl hlt
    rw [observe_member_eq_of_lt db g m now t hl hlt]

theorem observe_restoration_decision_case :
    (observe_member { roles := [], last_seen := [] } (fun _ _ _ => true)
      { joined_at := 3, user_id := 1, server_id := 2, roles := [] } 9).2 = [] :=
  (observe_restoration_decision { roles := [], last_seen := [] }
    (fun _ _ _ => true)
    { joined_at := 3, user_id := 1, server_id := 2, roles := [] } 9).1 rfl

/-- C5: saving a snapshot and then reading back the persisted roles yields
the snapshot's role set, and the last-seen read back is the save-time
wall clock, hence at least any instant taken just before the save
(the stored time is the time of the save, not joined_at). -/
theorem save_roundtrip (db : Db) (m : SimpleMember) (now : Nat) (t0 : Int)
    (h : t0 ≤ (now : Int)) :
    (rolesFor (save_member db m now) m.user_id m.server_id).toFinset
      = m.roles.toFinset ∧
    ∃ t : Int, last_seen (save_member db m now) m = some t ∧ t0 ≤ t := by
  constructor
  · rw [rolesFor_save]
  · exact ⟨(now : Int), last_seen_save db m m now rfl rfl, h⟩

theorem save_roundtrip_case :
    (rolesFor
      (save_member { roles := [], last_seen := [] }
        { joined_at := 0, user_id := 1, server_id := 2, roles := [7, 8] } 5)
      1 2).toFinset = ([7, 8] : List Nat).toFinset ∧
    ∃ t : Int,
      last_seen
        (save_member { roles := [], last_seen := [] }
          { joined_at := 0, user_id := 1, server_id := 2, roles := [7, 8] } 5)
        { joined_at := 0, user_id := 1, server_id := 2, roles := [7, 8] }
        = some t ∧ (4 : Int) ≤ t :=
  save_roundtrip { roles := [], last_seen := [] }
    { joined_at := 0, user_id := 1, server_id := 2, roles := [7, 8] } 5 4
    (by decide)

/-- C6: observing the same snapshot twice in immediate succession (the
snapshot's joined_at not later than the wall clock of the first save)
issues zero grant requests on the second call, because the first call
persisted a last-seen at or after the snapshot's join time. -/
theorem observe_idempotent_second_call (db : Db)
    (g g2 : Nat → Nat → Nat → Bool) (m : SimpleMember) (now1 now2 : Nat)
    (h : m.joined_at ≤ (now1 : Int)) :
    (observe_member (observe_member db g m now1).1 g2 m now2).2 = [] := by
  rw [observe_member_eq_of_ge (observe_member db g m now1).1 g2 m now2
    (now1 : Int) (last_seen_observe db g m now1) h]

theorem observe_idempotent_second_call_case :
    (observe_member
      (observe_member
        { roles := [{ user_id := 1, server_id := 2, role_id := 7 }],
          last_seen := [{ user_id := 1, server_id := 2, time := 0 }] }
        (fun _ _ _ => true)
        { joined_at := 3, user_id := 1, server_id := 2, roles := [] } 10).1
      (fun _ _ _ => true)
      { joined_at := 3, user_id := 1, server_id := 2, roles := [] } 11).2 = [] :=
  observe_idempotent_second_call
    { roles := [{ user_id := 1, server_id := 2, role_id := 7 }],
      last_seen := [{ user_id := 1, server_id := 2, time := 0 }] }
    (fun _ _ _ => true) (fun _ _ _ => true)
    { joined_at := 3, user_id := 1, server_id := 2, roles := [] } 10 11
    (by decide)

/-- C7: after forgetting a group, every key of that group reads back an
absent last-seen and an empty role set, while keys of other groups keep
both readings unchanged; the model performs both table deletes as a
single step, mirroring the enclosing transaction. -/
theorem forget_guild_frame (db : Db) (G : Nat) (m mo : SimpleMember)
    (hm : m.server_id = G) (hmo : mo.server_id ≠ G) :
    last_seen (forget_guild db G) m = none ∧
    rolesFor (forget_guild db G) m.user_id m.server_id = [] ∧
    last_seen (forget_guild db G) mo = last_seen db mo ∧
    rolesFor (forget_guild db G) mo.user_id mo.server_id
      = rolesFor db mo.user_id mo.server_id := by
  refine ⟨?_, ?_, ?_, ?_⟩
  · unfold last_seen forget_guild
    rw [filter_after_filter_not (fun (r : LastSeenRow) => r.server_id == G)
      (fun r => r.user_id == m.user_id && r.server_id == m.server_id) _ ?_]
    · rfl
    · intro a ha
      have h2 := (Bool.and_eq_true _ _).mp ha
      rw [← hm]
      exact h2.2
  · unfold rolesFor forget_guild
    rw [filter_after_filter_not (fun (r : RoleRow) => r.server_id == G)
      (fun r => r.user_id == m.user_id && r.server_id == m.server_id) _ ?_]
    · rfl
    · intro a ha
      have h2 := (Bool.and_eq_true _ _).mp ha
      rw [← hm]
      exact h2.2
  · unfold last_seen forget_guild
    rw [filter_after_filter_not_preserved
      (fun (r : LastSeenRow) => r.server_id == G)
      (fun r => r.user_id == mo.user_id && r.server_id == mo.server_id) _ ?_]
    intro a ha
    have h2 := (Bool.and_eq_true _ _).mp ha
    have hsv : a.server_id = mo.server_id := eq_of_beq h2.2
    show (a.server_id == G) = false
    rw [hsv]
    exact beq_eq_false_iff_ne.mpr hmo
  · unfold rolesFor forget_guild
    rw [filter_after_filter_not_preserved
      (fun (r : RoleRow) => r.server_id == G)
      (fun r => r.user_id == mo.user_id && r.server_id == mo.server_id) _ ?_]
    intro a ha
    have h2 := (Bool.and_eq_true _ _).mp ha
    have hsv : a.server_id = mo.server_id := eq_of_beq h2.2
    show (a.server_id == G) = false
    rw [hsv]
    exact beq_eq_false_iff_ne.mpr hmo

theorem forget_guild_frame_case :
    last_seen
      (forget_guild
        { roles := [{ user_id := 1, server_id := 5, role_id := 7 },
                    { user_id := 1, server_id := 6, role_id := 8 }],
          last_seen := [{ user_id := 1, server_id := 5, time := 3 },
                        { user_id := 1, server_id := 6, time := 4 }] } 5)
      { joined_at := 0, user_id := 1, server_id := 5, roles := [] } = none ∧
    rolesFor
      (forget_guild
        { roles := [{ user_id := 1, server_id := 5, role_id := 7 },
                    { user_id := 1, server_id := 6, role_id := 8 }],
          last_seen := [{ user_id := 1, server_id := 5, time := 3 },
                        { user_id := 1, server_id := 6, time := 4 }] } 5)
      1 5 = [] ∧
    last_seen
      (forget_guild
        { roles := [{ user_id := 1, server_id := 5, role_id := 7 },
                    { user_id := 1, server_id := 6, role_id := 8 }],
          last_seen := [{ user_id := 1, server_id := 5, time := 3 },
                        { user_id := 1, server_id := 6, time := 4 }] } 5)
      { joined_at := 0, user_id := 1, server_id := 6, roles := [] }
      = last_seen
        { roles := [{ user_id := 1, server_id := 5, role_id := 7 },
                    { user_id := 1, server_id := 6, role_id := 8 }],
          last_seen := [{ user_id := 1, server_id := 5, time := 3 },
                        { user_id := 1, server_id := 6, time := 4 }] }
        { joined_at := 0, user_id := 1, server_id := 6, roles := [] } ∧
    rolesFor
      (forget_guild
        { roles := [{ user_id := 1, server_id := 5, role_id := 7 },
                    { user_id := 1, server_id := 6, role_id := 8 }],
          last_seen := [{ user_id := 1, server_id := 5, time := 3 },
                        { user_id := 1, server_id := 6, time := 4 }] } 5)
      1 6
      = rolesFor
        { roles := [{ user_id := 1, server_id := 5, role_id := 7 },
                    { user_id := 1, server_id := 6, role_id := 8 }],
          last_seen := [{ user_id := 1, server_id := 5, time := 3 },
                        { user_id := 1, server_id := 6, time := 4 }] }
        1 6 :=
  forget_guild_frame
    { roles := [{ user_id := 1, server_id := 5, role_id := 7 },
                { user_id := 1, server_id := 6, role_id := 8 }],
      last_seen := [{ user_id := 1, server_id := 5, time := 3 },
                    { user_id := 1, server_id := 6, time := 4 }] } 5
    { joined_at := 0, user_id := 1, server_id := 5, roles := [] }
    { joined_at := 0, user_id := 1, server_id := 6, roles := [] }
    rfl (by decide)

theorem find_beq_isSome (id : Nat) (l : List Nat) :
    (l.find? (fun x => x == id)).isSome = decide (id ∈ l) := by
  induction l with
  | nil => rfl
  | cons a t ih =>
    by_cases h : a = id
    · subst h
      simp [List.find?_cons]
    · rw [List.find?_cons]
      have hb : (a == id) = false := beq_eq_false_iff_ne.mpr h
      rw [hb]
      simp [ih, List.mem_cons, Ne.symm h]

theorem find_beq_isNone (id : Nat) (l : List Nat) :
    (l.find? (fun x => x == id)).isNone = decide (id ∉ l) := by
  induction l with
  | nil => rfl
  | cons a t ih =>
    by_cases h : a = id
    · subst h
      simp [List.find?_cons]
    · rw [List.find?_cons]
      have hb : (a == id) = false := beq_eq_false_iff_ne.mpr h
      rw [hb]
      simp [ih, List.mem_cons, Ne.symm h]

/-- C8: the scope predicate is a pure function of the group id and the
static restriction: with no restriction it is always true; in Allow mode
it is true exactly for listed groups; in Deny mode exactly for groups
absent from the list. -/
theorem restriction_filter_characterization (id : Nat) (l : List Nat) :
    filter_allow_server none id = true ∧
    filter_allow_server
        (some { mode := RestrictionMode.Allow, servers := l }) id
      = decide (id ∈ l) ∧
    filter_allow_server
        (some { mode := RestrictionMode.Deny, servers := l }) id
      = decide (id ∉ l) := by
  refine ⟨rfl, ?_, ?_⟩
  · unfold filter_allow_server Restriction.is_restricted
    exact find_beq_isSome id l
  · unfold filter_allow_server Restriction.is_restricted
    exact find_beq_isNone id l

/-- C10: a member observation built from a member with an absent join
timestamp gets joined_at 0 (the Unix epoch); if a prior last-seen record
with a non-negative value exists for the key, observing such a snapshot
never restores and issues zero grant requests. -/
theorem absent_join_time_never_restores (db : Db)
    (g : Nat → Nat → Nat → Bool) (uid sid : Nat) (roles : List Nat)
    (now : Nat) (t : Int)
    (hl : last_seen db (simpleMemberOfMember none uid sid roles) = some t)
    (ht : 0 ≤ t) :
    (simpleMemberOfMember none uid sid roles).joined_at = 0 ∧
    (observe_member db g (simpleMemberOfMember none uid sid roles) now).2
      = [] := by
  constructor
  · rfl
  · rw [observe_member_eq_of_ge db g (simpleMemberOfMember none uid sid roles)
      now t hl ht]

theorem absent_join_time_never_restores_case :
    (simpleMemberOfMember none 1 2 []).joined_at = 0 ∧
    (observe_member
      { roles := [{ user_id := 1, server_id := 2, role_id := 7 }],
        last_seen := [{ user_id := 1, server_id := 2, time := 3 }] }
      (fun _ _ _ => true) (simpleMemberOfMember none 1 2 []) 9).2 = [] :=
  absent_join_time_never_restores
    { roles := [{ user_id := 1, server_id := 2, role_id := 7 }],
      last_seen := [{ user_id := 1, server_id := 2, time := 3 }] }
    (fun _ _ _ => true) 1 2 [] 9 3 rfl (by decide)

/-- C2: with persisted roles exactly A and B for the key, a prior
last-seen T0, and a snapshot whose joined_at is after T0 carrying no
roles, the observation issues exactly one grant request for A and one
for B; when both grants succeed the persisted role set for the key is
once again exactly the two roles. -/
theorem rejoin_restores_roles (db : Db) (g : Nat → Nat → Nat → Bool)
    (m : SimpleMember) (now : Nat) (A B : Nat) (t0 : Int)
    (hq : rolesFor db m.user_id m.server_id = [A, B])
    (hAB : A ≠ B)
    (hls : last_seen db m = some t0)
    (hlt : t0 < m.joined_at)
    (hmr : m.roles = [])
    (hA : g m.server_id m.user_id A = true)
    (hB : g m.server_id m.user_id B = true) :
    ((observe_member db g m now).2.count A = 1 ∧
     (observe_member db g m now).2.count B = 1 ∧
     (observe_member db g m now).2.length = 2) ∧
    (rolesFor (observe_member db g m now).1 m.user_id m.server_id).toFinset
      = ({A, B} : Finset Nat) := by
  have h1 : restoreStep g (m, []) A = ({ m with roles := [A] }, [A]) := by
    unfold restoreStep
    simp [hmr, hA]
  have h2 : restoreStep g ({ m with roles := [A] }, [A]) B
      = ({ m with roles := [A, B] }, [A, B]) := by
    unfold restoreStep
    have hc : ([A].contains B) = false := by
      simp [List.contains, Ne.symm hAB]
    simp [hc, hB, Ne.symm hAB]
  have hrestore : restore_member db g m = ({ m with roles := [A, B] }, [A, B]) := by
    unfold restore_member
    rw [hq, List.foldl_cons, h1, List.foldl_cons, h2, List.foldl_nil]
  have hobs : observe_member db g m now
      = (save_member db ({ m with roles := [A, B] }) now, [A, B]) := by
    rw [observe_member_eq_of_lt db g m now t0 hls hlt, hrestore]
  rw [hobs]
  refine ⟨⟨?_, ?_, ?_⟩, ?_⟩
  · simp [List.count_cons, hAB, Ne.symm hAB]
  · simp [List.count_cons, hAB, Ne.symm hAB]
  · rfl
  · have hs := rolesFor_save db ({ m with roles := [A, B] }) now
    simp only at hs
    rw [hs]
    simp [List.toFinset_cons]

theorem rejoin_restores_roles_case :
    ((observe_member
        { roles := [{ user_id := 1, server_id := 2, role_id := 10 },
                    { user_id := 1, server_id := 2, role_id := 11 }],
          last_seen := [{ user_id := 1, server_id := 2, time := 0 }] }
        (fun _ _ _ => true)
        { joined_at := 5, user_id := 1, server_id := 2, roles := [] } 7).2.count 10 = 1 ∧
     (observe_member
        { roles := [{ user_id := 1, server_id := 2, role_id := 10 },
                    { user_id := 1, server_id := 2, role_id := 11 }],
          last_seen := [{ user_id := 1, server_id := 2, time := 0 }] }
        (fun _ _ _ => true)
        { joined_at := 5, user_id := 1, server_id := 2, roles := [] } 7).2.count 11 = 1 ∧
     (observe_member
        { roles := [{ user_id := 1, server_id := 2, role_id := 10 },
                    { user_id := 1, server_id := 2, role_id := 11 }],
          last_seen := [{ user_id := 1, server_id := 2, time := 0 }] }
        (fun _ _ _ => true)
        { joined_at := 5, user_id := 1, server_id := 2, roles := [] } 7).2.length = 2) ∧
    (rolesFor
        (observe_member
          { roles := [{ user_id := 1, server_id := 2, role_id := 10 },
                      { user_id := 1, server_id := 2, role_id := 11 }],
            last_seen := [{ user_id := 1, server_id := 2, time := 0 }] }
          (fun _ _ _ => true)
          { joined_at := 5, user_id := 1, server_id := 2, roles := [] } 7).1
        1 2).toFinset = ({10, 11} : Finset Nat) :=
  rejoin_restores_roles
    { roles := [{ user_id := 1, server_id := 2, role_id := 10 },
                { user_id := 1, server_id := 2, role_id := 11 }],
      last_seen := [{ user_id := 1, server_id := 2, time := 0 }] }
    (fun _ _ _ => true)
    { joined_at := 5, user_id := 1, server_id := 2, roles := [] } 7 10 11 0
    rfl (by decide) rfl (by decide) rfl rfl rfl

/-- C3 counterexample: persisted role 7 for key (1,2), prior last-seen 0,
rejoin snapshot with joined_at 5 and no roles, and a grant call that
fails. The grant for role 7 is attempted (it is the one request issued),
yet after the observation completes the persisted role set for the key is
empty: the failed role does NOT remain in the persisted role set, so a
later restoration has nothing left to re-attempt. -/
theorem grant_failure_retry_counterexample :
    (observe_member
        { roles := [{ user_id := 1, server_id := 2, role_id := 7 }],
          last_seen := [{ user_id := 1, server_id := 2, time := 0 }] }
        (fun _ _ _ => false)
        { joined_at := 5, user_id := 1, server_id := 2, roles := [] } 10).2
      = [7] ∧
    rolesFor
      (observe_member
        { roles := [{ user_id := 1, server_id := 2, role_id := 7 }],
          last_seen := [{ user_id := 1, server_id := 2, time := 0 }] }
        (fun _ _ _ => false)
        { joined_at := 5, user_id := 1, server_id := 2, roles := [] } 10).1
      1 2 = [] := by
  constructor
  · rfl
  · rfl

/-- C3 (amended): when restoration is triggered, a grant is attempted for
every persisted role the snapshot is missing (a single failure does not
stop the remaining roles), and the observation still saves; but a role
whose grant failed is REMOVED from the persisted role set by that save
(the saved set is the snapshot's roles plus only the successfully
granted ones), so a later restoration does not re-attempt it. -/
theorem grant_failure_continues_but_drops_role (db : Db)
    (g : Nat → Nat → Nat → Bool) (m : SimpleMember) (now : Nat) (t : Int)
    (hl : last_seen db m = some t) (hlt : t < m.joined_at) :
    (∀ r, r ∈ rolesFor db m.user_id m.server_id → r ∉ m.roles →
      r ∈ (observe_member db g m now).2) ∧
    (∀ r, r ∈ rolesFor db m.user_id m.server_id → r ∉ m.roles →
      g m.server_id m.user_id r = false →
      r ∉ rolesFor (observe_member db g m now).1 m.user_id m.server_id) ∧
    last_seen (observe_member db g m now).1 m = some (now : Int) := by
  have hobs := observe_member_eq_of_lt db g m now t hl hlt
  have hids := restore_member_ids db g m
  refine ⟨?_, ?_, last_seen_observe db g m now⟩
  · intro r hr hnm
    rw [hobs]
    have hcover := restore_foldl_cover g (rolesFor db m.user_id m.server_id)
      (m, []) r hr
    rcases hcover with hroles | hreqs
    · have hsub := restore_foldl_roles_sub g (fun x => x ∈ m.roles)
        (rolesFor db m.user_id m.server_id) (m, []) (fun x hx => Or.inl hx)
        r hroles
      rcases hsub with hp | hq
      · exact absurd hp hnm
      · exact hq
    · exact hreqs
  · intro r hr hnm hfail
    rw [hobs]
    have hnotin := restore_foldl_fail_not_added g r
      (rolesFor db m.user_id m.server_id) (m, []) hfail hnm
    have hsave := rolesFor_save db (restore_member db g m).1 now
    rw [hids.1, hids.2] at hsave
    rw [hsave]
    exact hnotin

theorem grant_failure_continues_but_drops_role_case :
    (∀ r, r ∈ rolesFor
        { roles := [{ user_id := 1, server_id := 2, role_id := 7 }],
          last_seen := [{ user_id := 1, server_id := 2, time := 0 }] } 1 2 →
      r ∉ ([] : List Nat) →
      r ∈ (observe_member
        { roles := [{ user_id := 1, server_id := 2, role_id := 7 }],
          last_seen := [{ user_id := 1, server_id := 2, time := 0 }] }
        (fun _ _ _ => false)
        { joined_at := 5, user_id := 1, server_id := 2, roles := [] } 10).2) ∧
    (∀ r, r ∈ rolesFor
        { roles := [{ user_id := 1, server_id := 2, role_id := 7 }],
          last_seen := [{ user_id := 1, server_id := 2, time := 0 }] } 1 2 →
      r ∉ ([] : List Nat) →
      (fun _ _ _ => false : Nat → Nat → Nat → Bool) 2 1 r = false →
      r ∉ rolesFor
        (observe_member
          { roles := [{ user_id := 1, server_id := 2, role_id := 7 }],
            last_seen := [{ user_id := 1, server_id := 2, time := 0 }] }
          (fun _ _ _ => false)
          { joined_at := 5, user_id := 1, server_id := 2, roles := [] } 10).1
        1 2) ∧
    last_seen
      (observe_member
        { roles := [{ user_id := 1, server_id := 2, role_id := 7 }],
          last_seen := [{ user_id := 1, server_id := 2, time := 0 }] }
        (fun _ _ _ => false)
        { joined_at := 5, user_id := 1, server_id := 2, roles := [] } 10).1
      { joined_at := 5, user_id := 1, server_id := 2, roles := [] }
      = some (10 : Int) :=
  grant_failure_continues_but_drops_role
    { roles := [{ user_id := 1, server_id := 2, role_id := 7 }],
      last_seen := [{ user_id := 1, server_id := 2, time := 0 }] }
    (fun _ _ _ => false)
    { joined_at := 5, user_id := 1, server_id := 2, roles := [] } 10 0
    rfl (by decide)

/-- C4 counterexample: group 5 is out of scope under an Allow restriction
with an empty list, yet a guild_delete event for it (unavailable = false)
still invokes the forget engine operation, and that operation performs
store writes: applied to a store holding rows for group 5 it deletes
them, changing the store. -/
theorem out_of_scope_guild_delete_counterexample :
    filter_allow_server
      (some { mode := RestrictionMode.Allow, servers := [] }) 5 = false ∧
    guild_delete
      (some { mode := RestrictionMode.Allow, servers := [] }) 5 false
      = [EngineOp.forget 5] ∧
    forget_guild
        { roles := [{ user_id := 1, server_id := 5, role_id := 7 }],
          last_seen := [{ user_id := 1, server_id := 5, time := 3 }] } 5
      ≠ { roles := [{ user_id := 1, server_id := 5, role_id := 7 }],
          last_seen := [{ user_id := 1, server_id := 5, time := 3 }] } := by
  refine ⟨rfl, rfl, ?_⟩
  decide

/-- C4 (amended): for the ready, guild_create, guild_member_addition and
guild_member_update events an out-of-scope group triggers no engine
operation at all; the guild_delete event, however, invokes the forget
operation (store deletes) regardless of the restriction. -/
theorem out_of_scope_ignored_except_guild_delete
    (restrict : Option Restriction) (gid : Nat) (m : SimpleMember)
    (guilds : List Nat)
    (h : filter_allow_server restrict gid = false) :
    EngineOp.saveGuild gid ∉ ready restrict guilds ∧
    guild_create restrict gid = [] ∧
    (m.server_id = gid → guild_member_addition restrict m = []) ∧
    (m.server_id = gid → guild_member_update restrict m = []) ∧
    guild_delete restrict gid false = [EngineOp.forget gid] := by
  refine ⟨?_, ?_, ?_, ?_, rfl⟩
  · intro hmem
    unfold ready at hmem
    rcases List.mem_map.mp hmem with ⟨id, hid, he⟩
    have : id = gid := EngineOp.saveGuild.inj he
    subst this
    have hf := (List.mem_filter.mp hid).2
    rw [h] at hf
    exact Bool.false_ne_true hf
  · unfold guild_create
    rw [h]
    rfl
  · intro hsv
    unfold guild_member_addition
    rw [hsv, h]
    rfl
  · intro hsv
    unfold guild_member_update
    rw [hsv, h]
    rfl

theorem out_of_scope_ignored_except_guild_delete_case :
    EngineOp.saveGuild 5 ∉ ready
      (some { mode := RestrictionMode.Allow, servers := [] }) [5, 6] ∧
    guild_create (some { mode := RestrictionMode.Allow, servers := [] }) 5
      = [] ∧
    (({ joined_at := 0, user_id := 1, server_id := 5,
        roles := [] } : SimpleMember).server_id = 5 →
      guild_member_addition
        (some { mode := RestrictionMode.Allow, servers := [] })
        { joined_at := 0, user_id := 1, server_id := 5, roles := [] } = []) ∧
    (({ joined_at := 0, user_id := 1, server_id := 5,
        roles := [] } : SimpleMember).server_id = 5 →
      guild_member_update
        (some { mode := RestrictionMode.Allow, servers := [] })
        { joined_at := 0, user_id := 1, server_id := 5, roles := [] } = []) ∧
    guild_delete (some { mode := RestrictionMode.Allow, servers := [] }) 5
      false = [EngineOp.forget 5] :=
  out_of_scope_ignored_except_guild_delete
    (some { mode := RestrictionMode.Allow, servers := [] }) 5
    { joined_at := 0, user_id := 1, server_id := 5, roles := [] } [5, 6] rfl
